import Mathlib

set_option maxHeartbeats 1000000
set_option maxRecDepth 2000

/-!
Shallow embedding of the Machnet / NSaaS shared-memory channel core, from
src/src/ext/machnet_private.h and src/src/include/channel.h.  The jring ring
library, the channel helper accessors of nsaas_common.h and the MsgBufBatch
container are not part of src/; their definitions below are modelled from the
spec and say so in their doc comments.  Machine sizes (size_t, uint32_t) are
embedded as Nat; a size_t function that can return the failure sentinel
(size_t)-1 is embedded as an Option Nat returning none there.
-/

namespace Machnet

/-- Huge page size in bytes, the source constant HUGE_PAGE_2M_SIZE. -/
def HUGE_PAGE_2M_SIZE : Nat := 2 ^ 21

/-- Modelled from the spec: the base page size returned by getpagesize for a
POSIX shared memory backing; the standard 4 KiB page. -/
def POSIX_PAGE_SIZE : Nat := 4096

/-- Page size of the backing memory, per the is_posix_shm flag. -/
def pageSize (is_posix_shm : Bool) : Nat :=
  if is_posix_shm then POSIX_PAGE_SIZE else HUGE_PAGE_2M_SIZE

/-- The IS_POW2 macro of the source: (x & (x-1)) == 0.  Note that it accepts
zero. -/
def IS_POW2 (x : Nat) : Bool := x &&& (x - 1) == 0

/-- A genuine power-of-two test: nonzero and IS_POW2. -/
def isPow2True (x : Nat) : Bool := (x != 0) && IS_POW2 x

/-- Structural computation of the floor base-2 logarithm, fuel-driven so
that it evaluates by plain reduction; it agrees with Nat.log2 whenever the
fuel is at least the argument (theorem log2fuel_eq_log2 below). -/
def log2fuel : Nat → Nat → Nat
  | 0, _ => 0
  | fuel + 1, n => if 2 ≤ n then log2fuel fuel (n / 2) + 1 else 0

/-- The ROUNDUP_U64_POW2 macro of the source, 1 << (64 - clzll(x - 1)): for
x ≥ 2 the least power of two that is ≥ x, written as
2 ^ (floor log2 (x - 1) + 1). -/
def ROUNDUP_U64_POW2 (x : Nat) : Nat := 2 ^ (log2fuel (x - 1) (x - 1) + 1)

/-- The ALIGN_TO_PAGE_SIZE macro of the source: round x up to a multiple of
the power-of-two page size pg. -/
def ALIGN_TO_PAGE_SIZE (x pg : Nat) : Nat := ((x + pg - 1) / pg) * pg

/-- Modelled from the spec: the constant NSAAS_MSGBUF_SPACE_RESERVED (absent
from src), the fixed 64-byte buffer header record at the start of each slot. -/
def NSAAS_MSGBUF_SPACE_RESERVED : Nat := 64

/-- Modelled from the spec: the constant NSAAS_MSGBUF_HEADROOM_MAX (absent
from src), the maximum headroom for packet headers.  The spec fixes no number
but its scenario 1 (total_buf_size = 2048 at mss 1024) bounds
reserved + headroom by 1024; 64 bytes is taken here. -/
def NSAAS_MSGBUF_HEADROOM_MAX : Nat := 64

/-- Modelled from the spec: the channel readiness sentinel
NSAAS_CHANNEL_CTX_MAGIC (absent from src).  The value is opaque; it is
nonzero so that a zero-filled region is distinguishable from a published
one. -/
def NSAAS_CHANNEL_CTX_MAGIC : Nat := 0x4e5361615368436e

/-- Modelled from the spec: the per-buffer corruption sentinel
NSAAS_MSGBUF_MAGIC (absent from src); the value is opaque and nonzero. -/
def NSAAS_MSGBUF_MAGIC : Nat := 0x4d736742

/-- Channel ABI version; the spec states the current version is 1. -/
def NSAAS_CHANNEL_VERSION : Nat := 1

/-- Control submission ring slot count, from machnet_private.h. -/
def NSAAS_CHANNEL_CTRL_SQ_SLOT_NR : Nat := 2

/-- Control completion ring slot count, from machnet_private.h. -/
def NSAAS_CHANNEL_CTRL_CQ_SLOT_NR : Nat := NSAAS_CHANNEL_CTRL_SQ_SLOT_NR

/-- Modelled from the spec: byte size of the channel context header
(NSaaSChannelCtx_t: magic 8, version 4, size 8, name 64, eight 8-byte
offsets, three 4-byte buffer fields, control context), padded to a cache-line
multiple.  No claim depends on the exact value. -/
def sizeofChannelCtx : Nat := 192

/-- Modelled from the spec: byte size of the statistics block. -/
def sizeofChannelStats : Nat := 64

/-- Byte size of a ring slot (a 32-bit buffer index), per the spec data
model. -/
def sizeofRingSlot : Nat := 4

/-- Modelled from the spec: byte size of a control queue entry. -/
def sizeofCtrlQueueEntry : Nat := 64

/-- Modelled from the spec: fixed header bytes of a jring (producer and
consumer head/tail pairs and metadata) preceding its inline slot array. -/
def jringHeaderSize : Nat := 192

/-- Modelled from the spec: the lock-free index ring (the jring library is
absent from src).  A DPDK-style ring created over count slots has
mask = count - 1 and usable capacity = count - 1: one slot is a sentinel, per
the spec scenario wording "pool minus ring sentinel" and the src doc comment
"the number of buffers + 1 in the pool".  entries lists the ring contents in
FIFO order, oldest first; only state visible to the claims is kept. -/
structure jring where
  size : Nat
  mask : Nat
  capacity : Nat
  mpFlag : Bool
  mcFlag : Bool
  entries : List Nat
  deriving DecidableEq

/-- A zero-filled jring, the state of ring memory before jring_init. -/
def zeroJring : jring :=
  { size := 0, mask := 0, capacity := 0, mpFlag := false, mcFlag := false,
    entries := [] }

/-- Number of entries currently in the ring (jring_count). -/
def jring_count (r : jring) : Nat := r.entries.length

/-- Free slots left for producers (jring_free_count). -/
def jring_free_count (r : jring) : Nat := r.capacity - r.entries.length

/-- Modelled from the spec: jring_init fails when the slot count is not a
power of two or the record size is zero, and otherwise yields an empty ring
of usable capacity count - 1.  The source checks the returned code and
aborts channel initialization on failure. -/
def jring_init (count esize : Nat) (mpFlag mcFlag : Bool) : Option jring :=
  if isPow2True count && (esize != 0) then
    some { size := count, mask := count - 1, capacity := count - 1,
           mpFlag := mpFlag, mcFlag := mcFlag, entries := [] }
  else none

/-- Modelled from the spec: bytes of ring memory for count slots of esize
bytes each, failing ((size_t)-1, here none) on a bad slot count or a zero
record size. -/
def jring_get_buf_ring_size (esize count : Nat) : Option Nat :=
  if isPow2True count && (esize != 0) then
    some (jringHeaderSize + count * esize)
  else none

/-- Total-function version of jring_get_buf_ring_size, used by the source on
paths where it has already established that the call cannot fail. -/
def jringSizeBytes (esize count : Nat) : Nat := jringHeaderSize + count * esize

/-- Modelled from the spec: default bulk enqueue is all-or-nothing (it
returns n or 0 and never blocks).  The result is (enqueued, ring after,
free slots after), the last component mirroring the free_space out
parameter. -/
def jring_enqueue_bulk (r : jring) (xs : List Nat) (n : Nat) :
    Nat × jring × Nat :=
  if n ≤ jring_free_count r then
    (n, { r with entries := r.entries ++ xs.take n },
     r.capacity - (r.entries.length + n))
  else (0, r, jring_free_count r)

/-- Modelled from the spec: burst dequeue returns up to n of the oldest
entries (on underflow it returns fewer, or zero) and never blocks. -/
def jring_dequeue_burst (r : jring) (n : Nat) : Nat × List Nat × jring :=
  let k := min n r.entries.length
  (k, r.entries.take k, { r with entries := r.entries.drop k })

/-- Message buffer header fields, per the spec data model (NSaaSMsgBuf_t).
Only the header is modelled; payload bytes matter to no claim. -/
structure NSaaSMsgBuf where
  magic : Nat
  index : Nat
  size : Nat
  flags : Nat
  msg_len : Nat
  seg_len : Nat
  headroom_off : Nat
  next : Nat
  deriving DecidableEq

/-- Modelled from the spec: the state __nsaas_channel_buf_init leaves a
buffer in (mutable fields cleared, next the no-successor sentinel), followed
by the three immutable stores of the initialization loop: magic,
index := i and size := buffer_size + NSAAS_MSGBUF_HEADROOM_MAX, exactly as
in machnet_private.h lines 220-228. -/
def mkInitializedBuf (i buffer_size : Nat) : NSaaSMsgBuf :=
  { magic := NSAAS_MSGBUF_MAGIC, index := i,
    size := buffer_size + NSAAS_MSGBUF_HEADROOM_MAX,
    flags := 0, msg_len := 0, seg_len := 0, headroom_off := 0,
    next := 4294967295 }

/-- The channel context header plus the channel objects it addresses (rings
and buffer pool), as one record.  Offsets are byte offsets from the region
base, as stored in NSaaSChannelCtx_t. -/
structure NSaaSChannelCtx where
  magic : Nat
  version : Nat
  size : Nat
  name : String
  ctrl_req_id : Nat
  stats_ofs : Nat
  statsZeroed : Bool
  ctrl_sq_ring_ofs : Nat
  ctrl_cq_ring_ofs : Nat
  nsaas_ring_ofs : Nat
  app_ring_ofs : Nat
  buf_ring_ofs : Nat
  buf_pool_ofs : Nat
  buf_pool_mask : Nat
  buf_size : Nat
  buf_mss : Nat
  ctrlSq : jring
  ctrlCq : jring
  nsaasRing : jring
  appRing : jring
  bufRing : jring
  pool : List NSaaSMsgBuf
  deriving DecidableEq

/-- A zero-filled region, the content after ftruncate and before any store of
the initialization. -/
def zeroCtx : NSaaSChannelCtx :=
  { magic := 0, version := 0, size := 0, name := "", ctrl_req_id := 0,
    stats_ofs := 0, statsZeroed := false, ctrl_sq_ring_ofs := 0,
    ctrl_cq_ring_ofs := 0, nsaas_ring_ofs := 0, app_ring_ofs := 0,
    buf_ring_ofs := 0, buf_pool_ofs := 0, buf_pool_mask := 0, buf_size := 0,
    buf_mss := 0, ctrlSq := zeroJring, ctrlCq := zeroJring,
    nsaasRing := zeroJring, appRing := zeroJring, bufRing := zeroJring,
    pool := [] }

/-- Embedding of __nsaas_channel_dataplane_calculate_size
(machnet_private.h lines 60-100); none stands for the (size_t)-1 failure
return. -/
def __nsaas_channel_dataplane_calculate_size
    (nsaas_ring_slot_nr app_ring_slot_nr buf_ring_slot_nr buffer_size : Nat)
    (is_posix_shm : Bool) : Option Nat :=
  if !(IS_POW2 nsaas_ring_slot_nr && IS_POW2 app_ring_slot_nr &&
       IS_POW2 buf_ring_slot_nr) then none
  else
    let total_buffer_size := ROUNDUP_U64_POW2
      (buffer_size + NSAAS_MSGBUF_SPACE_RESERVED + NSAAS_MSGBUF_HEADROOM_MAX)
    let kPageSize := pageSize is_posix_shm
    if buffer_size > kPageSize then none
    else
      match jring_get_buf_ring_size sizeofRingSlot nsaas_ring_slot_nr,
            jring_get_buf_ring_size sizeofRingSlot app_ring_slot_nr,
            jring_get_buf_ring_size sizeofRingSlot buf_ring_slot_nr with
      | some a, some b, some c =>
        let t0 := sizeofChannelCtx + sizeofChannelStats + a + b + c
        let t1 := ALIGN_TO_PAGE_SIZE t0 kPageSize
        let t2 := t1 + buf_ring_slot_nr * total_buffer_size
        some (ALIGN_TO_PAGE_SIZE t2 kPageSize)
      | _, _, _ => none

/-- Labels for the stores __nsaas_channel_dataplane_init performs on the
shared region, in program order, used to state that the magic store comes
last. -/
inductive StoreEvent where
  | versionSt
  | sizeSt
  | nameSt
  | ctrlReqIdSt
  | statsOfsSt
  | statsClearSt
  | ctrlSqOfsSt
  | ctrlSqInitSt
  | ctrlCqOfsSt
  | ctrlCqInitSt
  | nsaasOfsSt
  | nsaasInitSt
  | appOfsSt
  | appInitSt
  | bufRingOfsSt
  | bufRingInitSt
  | bufPoolOfsSt
  | bufPoolMaskSt
  | bufSizeSt
  | bufMssSt
  | bufHdrSt (i : Nat)
  | freeEnqSt
  | magicSt
  deriving DecidableEq

/-- Result of one run of __nsaas_channel_dataplane_init: the returned code,
the region content when the function returns, and the ordered stores it
performed. -/
structure InitResult where
  ret : Int
  ctx : NSaaSChannelCtx
  trace : List StoreEvent
  deriving DecidableEq

/-- Embedding of __nsaas_channel_dataplane_init (machnet_private.h lines
123-250), following the source statement by statement.  mallocOk stands for
the success of the malloc of the temporary buffer index table; the jring
calls are the spec-modelled ones above; failure codes are embedded uniformly
as -1.  The pair of __sync_synchronize barriers around the magic store have
no content in this sequential embedding. -/
def __nsaas_channel_dataplane_init (shm_size : Nat) (is_posix_shm : Bool)
    (name : String)
    (nsaas_ring_slot_nr app_ring_slot_nr buf_ring_slot_nr buffer_size : Nat)
    (is_multithread : Bool) (mallocOk : Bool) : InitResult :=
  match __nsaas_channel_dataplane_calculate_size nsaas_ring_slot_nr
      app_ring_slot_nr buf_ring_slot_nr buffer_size is_posix_shm with
  | none => { ret := -1, ctx := zeroCtx, trace := [] }
  | some total_size =>
    if total_size > shm_size then { ret := -1, ctx := zeroCtx, trace := [] }
    else
      let c0 := { zeroCtx with
        version := NSAAS_CHANNEL_VERSION, size := total_size, name := name,
        ctrl_req_id := 0, stats_ofs := sizeofChannelCtx, statsZeroed := true,
        ctrl_sq_ring_ofs := sizeofChannelCtx + sizeofChannelStats }
      let t0 : List StoreEvent :=
        [.versionSt, .sizeSt, .nameSt, .ctrlReqIdSt, .statsOfsSt,
         .statsClearSt, .ctrlSqOfsSt]
      match jring_init NSAAS_CHANNEL_CTRL_SQ_SLOT_NR sizeofCtrlQueueEntry
          is_multithread false with
      | none => { ret := -1, ctx := c0, trace := t0 }
      | some sq =>
        let c1 := { c0 with
          ctrlSq := sq,
          ctrl_cq_ring_ofs := c0.ctrl_sq_ring_ofs +
            jringSizeBytes sizeofRingSlot NSAAS_CHANNEL_CTRL_SQ_SLOT_NR }
        let t1 := t0 ++ [.ctrlSqInitSt, .ctrlCqOfsSt]
        match jring_init NSAAS_CHANNEL_CTRL_CQ_SLOT_NR sizeofCtrlQueueEntry
            false is_multithread with
        | none => { ret := -1, ctx := c1, trace := t1 }
        | some cq =>
          let c2 := { c1 with
            ctrlCq := cq,
            nsaas_ring_ofs := c1.ctrl_cq_ring_ofs +
              jringSizeBytes sizeofRingSlot NSAAS_CHANNEL_CTRL_CQ_SLOT_NR }
          let t2 := t1 ++ [.ctrlCqInitSt, .nsaasOfsSt]
          match jring_init nsaas_ring_slot_nr sizeofRingSlot
              is_multithread true with
          | none => { ret := -1, ctx := c2, trace := t2 }
          | some nsaasRing =>
            let c3 := { c2 with
              nsaasRing := nsaasRing,
              app_ring_ofs := c2.nsaas_ring_ofs +
                jringSizeBytes sizeofRingSlot nsaas_ring_slot_nr }
            let t3 := t2 ++ [.nsaasInitSt, .appOfsSt]
            match jring_init app_ring_slot_nr sizeofRingSlot
                true is_multithread with
            | none => { ret := -1, ctx := c3, trace := t3 }
            | some appRing =>
              let c4 := { c3 with
                appRing := appRing,
                buf_ring_ofs := c3.app_ring_ofs +
                  jringSizeBytes sizeofRingSlot app_ring_slot_nr }
              let t4 := t3 ++ [.appInitSt, .bufRingOfsSt]
              match jring_init buf_ring_slot_nr sizeofRingSlot true true with
              | none => { ret := -1, ctx := c4, trace := t4 }
              | some bufRing =>
                let buf_ring_end_ofs := c4.buf_ring_ofs +
                  jringSizeBytes sizeofRingSlot buf_ring_slot_nr
                let kTotalBufSize := ROUNDUP_U64_POW2 (buffer_size +
                  NSAAS_MSGBUF_SPACE_RESERVED + NSAAS_MSGBUF_HEADROOM_MAX)
                let kPageSize := pageSize is_posix_shm
                let c5 := { c4 with
                  bufRing := bufRing,
                  buf_pool_ofs := ALIGN_TO_PAGE_SIZE buf_ring_end_ofs kPageSize,
                  buf_pool_mask := bufRing.capacity,
                  buf_size := kTotalBufSize,
                  buf_mss := buffer_size,
                  pool := (List.range bufRing.capacity).map
                    (fun i => mkInitializedBuf i buffer_size) }
                let t5 := t4 ++ [.bufRingInitSt, .bufPoolOfsSt, .bufPoolMaskSt,
                  .bufSizeSt, .bufMssSt] ++
                  (List.range bufRing.capacity).map StoreEvent.bufHdrSt
                if mallocOk = false then { ret := -1, ctx := c5, trace := t5 }
                else
                  let buf_index_table := List.range bufRing.capacity
                  let enqRes := jring_enqueue_bulk bufRing buf_index_table
                    bufRing.capacity
                  let c6 := { c5 with bufRing := enqRes.2.1 }
                  let t6 := t5 ++ [.freeEnqSt]
                  if enqRes.1 != bufRing.capacity || enqRes.2.2 != 0 then
                    { ret := -1, ctx := c6, trace := t6 }
                  else
                    { ret := 0,
                      ctx := { c6 with magic := NSAAS_CHANNEL_CTX_MAGIC },
                      trace := t6 ++ [.magicSt] }

/-- Result of one run of __nsaas_channel_create: the published context on
success, the backing kind, the region content when the call returns for a run
in which some mapping succeeded (even when torn down afterwards), whether the
creator unmapped it, whether it unlinked the POSIX name, and the ordered
stores of the initialization. -/
structure CreateResult where
  ctxOpt : Option NSaaSChannelCtx
  is_posix_shm : Bool
  mappedMem : Option NSaaSChannelCtx
  unmapped : Bool
  unlinked : Bool
  trace : List StoreEvent
  deriving DecidableEq

/-- Embedding of __nsaas_channel_create (machnet_private.h lines 429-480).
hugeOk and posixOk stand for the success of the external memfd/mmap/mlock
and shm_open/mmap/mlock sequences; mallocOk as in the initializer.  The
hugetlbfs path additionally requires the computed size to be 2 MiB aligned
(with a failed size computation standing for the unaligned (size_t)-1, as in
__nsaas_channel_hugetlbfs_create); the POSIX path fails when the size
computation failed, as ftruncate rejects (size_t)-1.  On an initialization
failure the creator calls __nsaas_channel_destroy, which unmaps and, for
POSIX backing, unlinks, as in lines 466-477.  The internal cleanup that
__nsaas_channel_posix_create performs when its own mapping steps fail (close
and unlink of a region that was never initialized) is folded into posixOk
and not modelled further. -/
def __nsaas_channel_create (channel_name : String)
    (nsaas_ring_slot_nr app_ring_slot_nr buf_ring_slot_nr buffer_size : Nat)
    (hugeOk posixOk mallocOk : Bool) : CreateResult :=
  let szH := __nsaas_channel_dataplane_calculate_size nsaas_ring_slot_nr
    app_ring_slot_nr buf_ring_slot_nr buffer_size false
  let hugeMapped := hugeOk &&
    (match szH with
     | some t => t % HUGE_PAGE_2M_SIZE == 0
     | none => false)
  if hugeMapped then
    let I := __nsaas_channel_dataplane_init (szH.getD 0) false channel_name
      nsaas_ring_slot_nr app_ring_slot_nr buf_ring_slot_nr buffer_size
      false mallocOk
    if I.ret == 0 then
      { ctxOpt := some I.ctx, is_posix_shm := false, mappedMem := some I.ctx,
        unmapped := false, unlinked := false, trace := I.trace }
    else
      { ctxOpt := none, is_posix_shm := false, mappedMem := some I.ctx,
        unmapped := true, unlinked := false, trace := I.trace }
  else
    let szP := __nsaas_channel_dataplane_calculate_size nsaas_ring_slot_nr
      app_ring_slot_nr buf_ring_slot_nr buffer_size true
    let posixMapped := posixOk && szP.isSome
    if posixMapped then
      let I := __nsaas_channel_dataplane_init (szP.getD 0) true channel_name
        nsaas_ring_slot_nr app_ring_slot_nr buf_ring_slot_nr buffer_size
        false mallocOk
      if I.ret == 0 then
        { ctxOpt := some I.ctx, is_posix_shm := true, mappedMem := some I.ctx,
          unmapped := false, unlinked := false, trace := I.trace }
      else
        { ctxOpt := none, is_posix_shm := true, mappedMem := some I.ctx,
          unmapped := true, unlinked := true, trace := I.trace }
    else
      { ctxOpt := none, is_posix_shm := true, mappedMem := none,
        unmapped := false, unlinked := false, trace := [] }

namespace ShmChannel

/-- GetTotalBufSize from channel.h line 100: the buf_size stride field. -/
def GetTotalBufSize (c : NSaaSChannelCtx) : Nat := c.buf_size

/-- GetUsableBufSize from channel.h line 105: the buf_mss field. -/
def GetUsableBufSize (c : NSaaSChannelCtx) : Nat := c.buf_mss

/-- GetTotalBufCount from channel.h line 108: the capacity of the free
buffer ring. -/
def GetTotalBufCount (c : NSaaSChannelCtx) : Nat := c.bufRing.capacity

/-- GetFreeBufCount from channel.h line 113; the underlying
__nsaas_channel_buffers_avail is absent from src and is modelled from the
spec as the entry count of the free ring. -/
def GetFreeBufCount (c : NSaaSChannelCtx) : Nat := jring_count c.bufRing

end ShmChannel

/-- Modelled from the spec: __nsaas_channel_buf (absent from src) resolves a
slot index to the buffer address pool_base + index * buf_size; addresses are
byte offsets from the region base, since each process maps the region at its
own base. -/
def __nsaas_channel_buf (c : NSaaSChannelCtx) (i : Nat) : Nat :=
  c.buf_pool_ofs + i * c.buf_size

/-- Modelled from the spec: __nsaas_channel_buf_index (absent from src), the
inverse of __nsaas_channel_buf. -/
def __nsaas_channel_buf_index (c : NSaaSChannelCtx) (a : Nat) : Nat :=
  (a - c.buf_pool_ofs) / c.buf_size

/-- Overwrite arr at positions p, ..., p + xs.length - 1 with xs, the
embedding of writing a C array range. -/
def writeAt (arr : List Nat) (p : Nat) (xs : List Nat) : List Nat :=
  arr.take p ++ xs ++ arr.drop (p + xs.length)

/-- Compile-time batch capacity MsgBufBatch::kMaxBurst; the MsgBufBatch
class is absent from src, and the spec fixes the capacity at compile time
without giving the number, so 32 is taken here. -/
def kMaxBurst : Nat := 32

/-- Modelled from the spec: the MsgBufBatch container (absent from src):
two backing arrays of kMaxBurst slots for buffer indices and buffer
pointers, and the count of valid leading entries. -/
structure MsgBufBatch where
  indices : List Nat
  bufs : List Nat
  cnt : Nat
  deriving DecidableEq

/-- MsgBufBatch::GetSize. -/
def MsgBufBatch.GetSize (b : MsgBufBatch) : Nat := b.cnt

/-- MsgBufBatch::GetRoom: the remaining capacity. -/
def MsgBufBatch.GetRoom (b : MsgBufBatch) : Nat := kMaxBurst - b.cnt

/-- MsgBufBatch::Clear resets the count; the backing arrays keep their
contents. -/
def MsgBufBatch.Clear (b : MsgBufBatch) : MsgBufBatch := { b with cnt := 0 }

/-- Modelled from the spec: __nsaas_channel_buf_alloc_bulk (absent from
src): burst-dequeue up to cnt indices from the free ring; on underflow it
returns fewer (or zero).  Result: (count, dequeued indices, channel
after). -/
def __nsaas_channel_buf_alloc_bulk (c : NSaaSChannelCtx) (cnt : Nat) :
    Nat × List Nat × NSaaSChannelCtx :=
  let d := jring_dequeue_burst c.bufRing cnt
  (d.1, d.2.1, { c with bufRing := d.2.2 })

/-- Modelled from the spec: __nsaas_channel_buf_free_bulk (absent from src):
all-or-nothing bulk enqueue of the first n of indices onto the free ring,
returning the enqueued count (n or 0) and the channel after. -/
def __nsaas_channel_buf_free_bulk (c : NSaaSChannelCtx) (n : Nat)
    (indices : List Nat) : Nat × NSaaSChannelCtx :=
  let e := jring_enqueue_bulk c.bufRing indices n
  (e.1, { c with bufRing := e.2.1 })

/-- Modelled from the spec: __nsaas_channel_nsaas_ring_enqueue (absent from
src): bulk enqueue of slot indices onto the NSaaS-to-application ring,
mirroring __nsaas_channel_enqueue of machnet_private.h lines 482-488. -/
def __nsaas_channel_nsaas_ring_enqueue (c : NSaaSChannelCtx) (n : Nat)
    (bufs : List Nat) : Nat × NSaaSChannelCtx :=
  let e := jring_enqueue_bulk c.nsaasRing bufs n
  (e.1, { c with nsaasRing := e.2.1 })

/-- Modelled from the spec: __nsaas_channel_app_ring_dequeue (absent from
src): burst dequeue of up to n slot indices from the application-to-NSaaS
ring. -/
def __nsaas_channel_app_ring_dequeue (c : NSaaSChannelCtx) (n : Nat) :
    Nat × List Nat × NSaaSChannelCtx :=
  let d := jring_dequeue_burst c.appRing n
  (d.1, d.2.1, { c with appRing := d.2.2 })

namespace ShmChannel

/-- Result record for ShmChannel::DequeueMessages: the returned count, the
two caller arrays after the call, and the channel after. -/
structure DequeueResult where
  ret : Nat
  msg_indices : List Nat
  msgs : List Nat
  chan : NSaaSChannelCtx
  deriving DecidableEq

/-- Embedding of ShmChannel::DequeueMessages (channel.h lines 220-229):
dequeue up to nb_msgs indices from the app ring into msg_indices, then for
each dequeued position i write msgs[i] := __nsaas_channel_buf of the index;
positions from the returned count on are not written. -/
def DequeueMessages (c : NSaaSChannelCtx) (msg_indices msgs : List Nat)
    (nb_msgs : Nat) : DequeueResult :=
  let d := __nsaas_channel_app_ring_dequeue c nb_msgs
  { ret := d.1,
    msg_indices := writeAt msg_indices 0 d.2.1,
    msgs := writeAt msgs 0 (d.2.1.map (__nsaas_channel_buf c)),
    chan := d.2.2 }

/-- Embedding of the index-array overload of ShmChannel::EnqueueMessages
(channel.h lines 173-175). -/
def EnqueueMessagesIdx (c : NSaaSChannelCtx) (msgbuf_indices : List Nat)
    (nb_msgs : Nat) : Nat × NSaaSChannelCtx :=
  __nsaas_channel_nsaas_ring_enqueue c nb_msgs msgbuf_indices

/-- Embedding of the pointer-array overload of ShmChannel::EnqueueMessages
(channel.h lines 187-197): the count is clamped to kMaxBurst, the first
nmsgs pointers are translated to slot indices into a local array, and the
index overload is called with nmsgs. -/
def EnqueueMessagesPtr (c : NSaaSChannelCtx) (msgs : List Nat)
    (nb_msgs : Nat) : Nat × NSaaSChannelCtx :=
  let nmsgs := min nb_msgs kMaxBurst
  let slots := (msgs.take nmsgs).map (__nsaas_channel_buf_index c)
  EnqueueMessagesIdx c slots nmsgs

/-- Result record for the allocating and freeing batch operations. -/
structure BatchOpResult where
  ok : Bool
  batch : MsgBufBatch
  chan : NSaaSChannelCtx
  deriving DecidableEq

/-- Embedding of ShmChannel::MsgBufBulkAlloc (channel.h lines 288-298): the
request is clamped to the batch room, the allocated indices and resolved
pointers are written at the start of the backing arrays, the count grows by
the number allocated, and the call reports failure exactly when zero buffers
were obtained. -/
def MsgBufBulkAlloc (c : NSaaSChannelCtx) (b : MsgBufBatch) (cnt : Nat) :
    BatchOpResult :=
  let a := __nsaas_channel_buf_alloc_bulk c (min cnt b.GetRoom)
  { ok := a.1 != 0,
    batch := { indices := writeAt b.indices 0 a.2.1,
               bufs := writeAt b.bufs 0 (a.2.1.map (__nsaas_channel_buf c)),
               cnt := b.cnt + a.1 },
    chan := a.2.2 }

/-- The do/while retry loop shared by ShmChannel::MsgBufFree and
ShmChannel::MsgBufBulkFree: one attempt, then as long as the attempt
returned zero, up to fuel further attempts (the source initializes the fuel
to 5). -/
def freeRetryLoop : NSaaSChannelCtx → Nat → List Nat → Nat →
    Nat × NSaaSChannelCtx
  | c, n, indices, 0 => __nsaas_channel_buf_free_bulk c n indices
  | c, n, indices, fuel + 1 =>
    let r := __nsaas_channel_buf_free_bulk c n indices
    if r.1 = 0 then freeRetryLoop r.2 n indices fuel else r

/-- Embedding of ShmChannel::MsgBufFree (channel.h lines 267-278): translate
the buffer pointer to its index and free it with the bounded retry loop,
reporting the final nonzero-ness. -/
def MsgBufFree (c : NSaaSChannelCtx) (bufAddr : Nat) :
    Bool × NSaaSChannelCtx :=
  let idx := __nsaas_channel_buf_index c bufAddr
  let r := freeRetryLoop c 1 [idx] 5
  (r.1 != 0, r.2)

/-- Embedding of ShmChannel::MsgBufBulkFree (channel.h lines 306-323): an
empty batch succeeds immediately; otherwise the batch indices are freed with
the bounded retry loop; on persistent zero the call reports failure leaving
the batch as it was, and on success the batch is cleared. -/
def MsgBufBulkFree (c : NSaaSChannelCtx) (b : MsgBufBatch) : BatchOpResult :=
  if b.GetSize = 0 then { ok := true, batch := b, chan := c }
  else
    let r := freeRetryLoop c b.GetSize b.indices 5
    if r.1 = 0 then { ok := false, batch := b, chan := r.2 }
    else { ok := true, batch := b.Clear, chan := r.2 }

end ShmChannel

/-- The same do/while retry loop abstracted over the outcome of each
attempt, so that transient failures caused by concurrent producers are
expressible: oracle k is the count returned by the k-th call to
__nsaas_channel_buf_free_bulk.  Arguments are the index of the next call and
the remaining fuel; the result pairs the final return value with the total
number of calls made. -/
def freeAttemptLoop (oracle : Nat → Nat) : Nat → Nat → Nat × Nat
  | k, 0 => (oracle k, k + 1)
  | k, fuel + 1 =>
    if oracle k = 0 then freeAttemptLoop oracle (k + 1) fuel
    else (oracle k, k + 1)

/-- The retry loop of MsgBufFree and MsgBufBulkFree over an attempt-outcome
oracle, started like the source with fuel 5. -/
def freeAttempts (oracle : Nat → Nat) : Nat × Nat := freeAttemptLoop oracle 0 5

/-- ChannelManager::kMaxChannelNr from channel.h line 464. -/
def kMaxChannelNr : Nat := 32

/-- The channel registry of ChannelManager: name to channel context, mutex
elided (all modelled operations are whole-critical-section steps). -/
structure ChannelManager where
  channels : List (String × NSaaSChannelCtx)
  deriving DecidableEq

/-- Result of ChannelManager::AddChannel: the returned flag, the registry
after, whether __nsaas_channel_create was invoked at all, and the outcome of
that invocation. -/
structure AddChannelResult where
  ok : Bool
  mgr : ChannelManager
  createCalled : Bool
  created : Option CreateResult
  deriving DecidableEq

/-- Embedding of ChannelManager::AddChannel (channel.h lines 487-517): the
capacity check comes first, the duplicate-name check second, and only then
is __nsaas_channel_create invoked; on creation failure nothing is inserted,
and on success the new channel is inserted under its name. -/
def AddChannel (m : ChannelManager) (name : String)
    (nsaas_ring_slot_nr app_ring_slot_nr buf_ring_slot_nr buffer_size : Nat)
    (hugeOk posixOk mallocOk : Bool) : AddChannelResult :=
  if kMaxChannelNr ≤ m.channels.length then
    { ok := false, mgr := m, createCalled := false, created := none }
  else if (m.channels.lookup name).isSome then
    { ok := false, mgr := m, createCalled := false, created := none }
  else
    let R := __nsaas_channel_create name nsaas_ring_slot_nr app_ring_slot_nr
      buf_ring_slot_nr buffer_size hugeOk posixOk mallocOk
    match R.ctxOpt with
    | none => { ok := false, mgr := m, createCalled := true, created := some R }
    | some ctx =>
      { ok := true, mgr := { channels := (name, ctx) :: m.channels },
        createCalled := true, created := some R }

/-! Helper lemmas. -/

theorem log2fuel_eq_log2 : ∀ (fuel n : Nat), n ≤ fuel →
    log2fuel fuel n = Nat.log2 n := by
  intro fuel
  induction fuel with
  | zero =>
    intro n h
    have hn : n = 0 := Nat.le_zero.mp h
    subst hn
    unfold log2fuel Nat.log2
    simp
  | succ m ih =>
    intro n h
    unfold log2fuel
    rw [Nat.log2]
    by_cases h2 : 2 ≤ n
    · rw [if_pos h2, if_pos h2,
        ih (n / 2) (by omega)]
    · rw [if_neg h2, if_neg h2]

theorem ROUNDUP_U64_POW2_eq_log2 (x : Nat) :
    ROUNDUP_U64_POW2 x = 2 ^ (Nat.log2 (x - 1) + 1) := by
  unfold ROUNDUP_U64_POW2
  rw [log2fuel_eq_log2 _ _ (Nat.le_refl _)]


theorem IS_POW2_two_pow (k : Nat) : IS_POW2 (2 ^ k) = true := by
  unfold IS_POW2
  rw [beq_iff_eq]
  apply Nat.eq_of_testBit_eq
  intro i
  rw [Nat.testBit_land, Nat.zero_testBit, Nat.testBit_two_pow_sub_one,
    Nat.testBit_two_pow]
  by_cases h : k = i
  · subst h; simp
  · simp [h]

theorem two_pow_of_IS_POW2 {n : Nat} (h0 : n ≠ 0) (h : IS_POW2 n = true) :
    ∃ k, n = 2 ^ k := by
  refine ⟨Nat.log2 n, ?_⟩
  by_contra hne
  have hle : 2 ^ Nat.log2 n ≤ n := Nat.log2_self_le h0
  have hlt : n < 2 ^ (Nat.log2 n + 1) := (Nat.log2_lt h0).1 (Nat.lt_succ_self _)
  set k := Nat.log2 n with hk
  have hpow : 2 ^ (k + 1) = 2 ^ k + 2 ^ k := by rw [Nat.pow_succ]; omega
  have hrpos : 0 < n - 2 ^ k := by
    rcases Nat.lt_or_ge (2 ^ k) n with h' | h'
    · omega
    · exact absurd (Nat.le_antisymm h' hle) hne
  have hrlt : n - 2 ^ k < 2 ^ k := by omega
  have h1 : Nat.testBit n k = true := by
    have hn : n = 2 ^ k + (n - 2 ^ k) := by omega
    rw [hn, Nat.testBit_two_pow_add_eq, Nat.testBit_lt_two_pow hrlt]
    rfl
  have h2 : Nat.testBit (n - 1) k = true := by
    have hn : n - 1 = 2 ^ k + (n - 2 ^ k - 1) := by omega
    rw [hn, Nat.testBit_two_pow_add_eq,
      Nat.testBit_lt_two_pow (x := n - 2 ^ k - 1) (by omega)]
    rfl
  have h4 : n &&& (n - 1) = 0 := by
    unfold IS_POW2 at h
    simpa using h
  have h3 : Nat.testBit (n &&& (n - 1)) k = true := by
    rw [Nat.testBit_land, h1, h2]
    rfl
  rw [h4, Nat.zero_testBit] at h3
  exact Bool.false_ne_true h3

theorem isPow2True_iff {n : Nat} : isPow2True n = true ↔ ∃ k, n = 2 ^ k := by
  constructor
  · intro h
    unfold isPow2True at h
    rw [Bool.and_eq_true] at h
    exact two_pow_of_IS_POW2 (by simpa using h.1) h.2
  · rintro ⟨k, rfl⟩
    unfold isPow2True
    rw [Bool.and_eq_true]
    exact ⟨by simp, IS_POW2_two_pow k⟩

theorem IS_POW2_of_isPow2True {n : Nat} (h : isPow2True n = true) :
    IS_POW2 n = true := by
  unfold isPow2True at h
  rw [Bool.and_eq_true] at h
  exact h.2

theorem jring_get_buf_ring_size_slot_eq (c : Nat) :
    jring_get_buf_ring_size sizeofRingSlot c =
      (if isPow2True c = true then some (jringSizeBytes sizeofRingSlot c)
       else none) := by
  unfold jring_get_buf_ring_size jringSizeBytes
  by_cases h : isPow2True c = true <;> simp [h, sizeofRingSlot]

/-- Characterization of the size computation: it fails exactly on a
non-power-of-two ring size (zero included) or an oversized buffer. -/
theorem calc_none_iff
    (ns app buf bufsz : Nat) (posix : Bool) :
    __nsaas_channel_dataplane_calculate_size ns app buf bufsz posix = none ↔
      ¬(isPow2True ns = true ∧ isPow2True app = true ∧
        isPow2True buf = true ∧ bufsz ≤ pageSize posix) := by
  constructor
  · intro h
    rintro ⟨h1, h2, h3, h4⟩
    unfold __nsaas_channel_dataplane_calculate_size at h
    rw [IS_POW2_of_isPow2True h1, IS_POW2_of_isPow2True h2,
      IS_POW2_of_isPow2True h3] at h
    simp only [Bool.and_self, Bool.not_true, Bool.false_eq_true, if_false,
      Nat.not_lt.mpr h4, gt_iff_lt, if_neg (Nat.not_lt.mpr h4),
      jring_get_buf_ring_size_slot_eq, h1, h2, h3, if_true] at h
    exact Option.some_ne_none _ h
  · intro h
    unfold __nsaas_channel_dataplane_calculate_size
    by_cases hc : (IS_POW2 ns && IS_POW2 app && IS_POW2 buf) = true
    · simp only [hc, Bool.not_true, Bool.false_eq_true, if_false]
      by_cases hb : bufsz > pageSize posix
      · simp [hb]
      · simp only [hb, if_false]
        have hone : isPow2True ns = false ∨ isPow2True app = false ∨
            isPow2True buf = false := by
          by_contra hcon
          push_neg at hcon
          exact h ⟨eq_true_of_ne_false hcon.1, eq_true_of_ne_false hcon.2.1,
            eq_true_of_ne_false hcon.2.2, Nat.not_lt.mp hb⟩
        rcases hone with h1 | h1 | h1 <;>
          simp [jring_get_buf_ring_size_slot_eq, h1]
    · simp [hc]

/-- Extraction of the validity facts from a successful size computation. -/
theorem calc_some_facts {ns app buf bufsz : Nat} {posix : Bool} {t : Nat}
    (h : __nsaas_channel_dataplane_calculate_size ns app buf bufsz posix =
      some t) :
    isPow2True ns = true ∧ isPow2True app = true ∧ isPow2True buf = true ∧
      bufsz ≤ pageSize posix := by
  by_contra hcon
  rw [← calc_none_iff ns app buf bufsz posix] at hcon
  rw [h] at hcon
  exact Option.some_ne_none t hcon

theorem jring_init_inv {count esize : Nat} {mp mc : Bool} {r : jring}
    (h : jring_init count esize mp mc = some r) :
    r = { size := count, mask := count - 1, capacity := count - 1,
          mpFlag := mp, mcFlag := mc, entries := [] } := by
  unfold jring_init at h
  split at h
  · exact (Option.some_inj.mp h).symm
  · exact Option.noConfusion h

/-- Every run of the initializer either returns 0 with the magic published,
every buffer header written, the free ring holding exactly the indices
0 .. capacity - 1 and the magic store last in the store trace, or returns -1
with the magic still zero and no magic store in the trace. -/
theorem init_dichotomy (shm : Nat) (posix : Bool) (nm : String)
    (ns app buf bufsz : Nat) (mt mOk : Bool) (R : InitResult)
    (hR : __nsaas_channel_dataplane_init shm posix nm ns app buf bufsz mt mOk
      = R) :
    (R.ret = 0 ∧ R.ctx.magic = NSAAS_CHANNEL_CTX_MAGIC ∧
      R.ctx.buf_mss = bufsz ∧
      R.ctx.buf_size = ROUNDUP_U64_POW2 (bufsz + NSAAS_MSGBUF_SPACE_RESERVED +
        NSAAS_MSGBUF_HEADROOM_MAX) ∧
      R.ctx.bufRing.capacity = buf - 1 ∧
      R.ctx.bufRing.entries = List.range (buf - 1) ∧
      R.ctx.pool = (List.range (buf - 1)).map
        (fun i => mkInitializedBuf i bufsz) ∧
      (∃ pre, R.trace = pre ++ [StoreEvent.magicSt])) ∨
    (R.ret = -1 ∧ R.ctx.magic = 0 ∧ StoreEvent.magicSt ∉ R.trace) := by
  unfold __nsaas_channel_dataplane_init at hR
  split at hR
  · right
    subst hR
    simp [zeroCtx]
  · split at hR
    · right
      subst hR
      simp [zeroCtx]
    · try dsimp only at hR
      split at hR
      · right
        subst hR
        simp [zeroCtx]
      · try dsimp only at hR
        split at hR
        · right
          subst hR
          simp [zeroCtx]
        · try dsimp only at hR
          split at hR
          · right
            subst hR
            simp [zeroCtx]
          · try dsimp only at hR
            split at hR
            · right
              subst hR
              simp [zeroCtx]
            · try dsimp only at hR
              split at hR
              · right
                subst hR
                simp [zeroCtx]
              · rename_i bufRing hbuf
                have hbr := jring_init_inv hbuf
                subst hbr
                try dsimp only at hR
                split at hR
                · right
                  subst hR
                  simp [zeroCtx]
                · try dsimp only at hR
                  split at hR
                  · rename_i hcond
                    exfalso
                    simp [jring_enqueue_bulk, jring_free_count,
                      List.length_range] at hcond
                  · subst hR
                    left
                    refine ⟨rfl, rfl, rfl, rfl, ?_, ?_, ?_, ?_⟩
                    · simp [jring_enqueue_bulk, jring_free_count]
                    · simp [jring_enqueue_bulk, jring_free_count,
                        List.take_of_length_le, List.length_range]
                    · rfl
                    · exact ⟨_, rfl⟩


theorem buf_free_bulk_zero_unchanged (c : NSaaSChannelCtx) (n : Nat)
    (xs : List Nat)
    (h : (__nsaas_channel_buf_free_bulk c n xs).1 = 0) :
    (__nsaas_channel_buf_free_bulk c n xs).2 = c := by
  unfold __nsaas_channel_buf_free_bulk jring_enqueue_bulk at h ⊢
  by_cases hc : n ≤ jring_free_count c.bufRing
  · rw [if_pos hc] at h ⊢
    simp only at h
    subst h
    simp
  · rw [if_neg hc] at h ⊢

theorem freeRetryLoop_zero_unchanged :
    ∀ (fuel : Nat) (c : NSaaSChannelCtx) (n : Nat) (xs : List Nat),
      (ShmChannel.freeRetryLoop c n xs fuel).1 = 0 →
      (ShmChannel.freeRetryLoop c n xs fuel).2 = c := by
  intro fuel
  induction fuel with
  | zero =>
    intro c n xs h
    exact buf_free_bulk_zero_unchanged c n xs h
  | succ m ih =>
    intro c n xs h
    unfold ShmChannel.freeRetryLoop at h ⊢
    by_cases h0 : (__nsaas_channel_buf_free_bulk c n xs).1 = 0
    · rw [if_pos h0] at h ⊢
      rw [ih _ n xs h]
      exact buf_free_bulk_zero_unchanged c n xs h0
    · rw [if_neg h0] at h ⊢
      exact absurd h h0

theorem freeAttemptLoop_bounds (oracle : Nat → Nat) :
    ∀ (fuel k : Nat),
      k < (freeAttemptLoop oracle k fuel).2 ∧
      (freeAttemptLoop oracle k fuel).2 ≤ k + fuel + 1 := by
  intro fuel
  induction fuel with
  | zero => intro k; unfold freeAttemptLoop; omega
  | succ m ih =>
    intro k
    unfold freeAttemptLoop
    by_cases h0 : oracle k = 0
    · rw [if_pos h0]
      have := ih (k + 1)
      omega
    · rw [if_neg h0]
      omega

theorem freeAttemptLoop_zero_iff (oracle : Nat → Nat) :
    ∀ (fuel k : Nat),
      (freeAttemptLoop oracle k fuel).1 = 0 ↔
      (∀ i, k ≤ i → i < (freeAttemptLoop oracle k fuel).2 → oracle i = 0) := by
  intro fuel
  induction fuel with
  | zero =>
    intro k
    unfold freeAttemptLoop
    constructor
    · intro h i hki hik
      simp only at hik
      have : i = k := by omega
      exact this ▸ h
    · intro h
      exact h k (Nat.le_refl k) (by simp)
  | succ m ih =>
    intro k
    unfold freeAttemptLoop
    by_cases h0 : oracle k = 0
    · rw [if_pos h0]
      constructor
      · intro h i hki hik
        rcases Nat.eq_or_lt_of_le hki with rfl | hlt
        · exact h0
        · exact (ih (k + 1)).mp h i hlt hik
      · intro h
        refine (ih (k + 1)).mpr ?_
        intro i hki hik
        exact h i (Nat.le_of_succ_le hki) hik
    · rw [if_neg h0]
      constructor
      · intro h
        exact absurd h h0
      · intro h
        exact absurd (h k (Nat.le_refl k) (by simp)) h0

theorem writeAt_zero (arr xs : List Nat) :
    writeAt arr 0 xs = xs ++ arr.drop xs.length := by
  unfold writeAt
  simp

theorem writeAt_zero_getElem_lt (arr xs : List Nat) (i : Nat)
    (h : i < xs.length) : (writeAt arr 0 xs)[i]? = xs[i]? := by
  rw [writeAt_zero]
  exact List.getElem?_append_left h

theorem writeAt_zero_getElem_ge (arr xs : List Nat) (j : Nat)
    (h : xs.length ≤ j) : (writeAt arr 0 xs)[j]? = arr[j]? := by
  rw [writeAt_zero]
  rw [List.getElem?_append_right h, List.getElem?_drop]
  congr 1
  omega

/-! Claim theorems. -/

/-- C4: for every input, the channel size calculation fails (returns the
(size_t)-1 sentinel, embedded as none) exactly when one of the three ring
slot counts is not a power of two (a zero count included, since zero is no
power of two and the modelled ring size helper rejects it) or the buffer
size exceeds the backing page size; otherwise it returns a byte size. -/
theorem C4_calculate_size_failure (ns app buf bufsz : Nat) (posix : Bool) :
    __nsaas_channel_dataplane_calculate_size ns app buf bufsz posix = none ↔
      ¬((∃ i, ns = 2 ^ i) ∧ (∃ j, app = 2 ^ j) ∧ (∃ k, buf = 2 ^ k) ∧
        bufsz ≤ pageSize posix) := by
  rw [calc_none_iff]
  rw [isPow2True_iff, isPow2True_iff, isPow2True_iff]

/-- Witness for C4: a zero buffer-ring slot count makes the computation
fail, and the theorem then yields that the inputs were invalid. -/
theorem C4_calculate_size_failure_witness :
    ¬((∃ i, (2 : Nat) = 2 ^ i) ∧ (∃ j, (2 : Nat) = 2 ^ j) ∧
      (∃ k, (0 : Nat) = 2 ^ k) ∧ (8 : Nat) ≤ pageSize true) :=
  (C4_calculate_size_failure 2 2 0 8 true).mp (by decide)

/-- C2 counterexample: creating the channel of spec scenario 1
(nsaas 256, app 256, buf 4096, mss 1024) succeeds, but GetTotalBufCount
reports the free-ring capacity 4095, not 4096: the buf_ring_slot_nr is the
number of buffers plus one (src doc comment), and the ring keeps one
sentinel slot. -/
theorem C2_total_buf_count_counterexample :
    Option.map ShmChannel.GetTotalBufCount
        (__nsaas_channel_create "c0" 256 256 4096 1024 true true true).ctxOpt
      = some 4095 ∧
    Option.map ShmChannel.GetTotalBufCount
        (__nsaas_channel_create "c0" 256 256 4096 1024 true true true).ctxOpt
      ≠ some 4096 := by
  constructor
  · rfl
  · intro h
    rw [show Option.map ShmChannel.GetTotalBufCount
        (__nsaas_channel_create "c0" 256 256 4096 1024 true true true).ctxOpt
      = some 4095 from rfl] at h
    exact absurd (Option.some_inj.mp h) (by decide)

/-- C2 (amended): after successfully creating a channel with
nsaas_ring_slot_nr 256, app_ring_slot_nr 256, buf_ring_slot_nr 4096 and
buffer_size 1024, the accessors report GetFreeBufCount 4095,
GetTotalBufCount 4095, GetUsableBufSize 1024 and GetTotalBufSize 2048. -/
theorem C2_scenario_accessors :
    Option.map ShmChannel.GetFreeBufCount
        (__nsaas_channel_create "c0" 256 256 4096 1024 true true true).ctxOpt
      = some 4095 ∧
    Option.map ShmChannel.GetTotalBufCount
        (__nsaas_channel_create "c0" 256 256 4096 1024 true true true).ctxOpt
      = some 4095 ∧
    Option.map ShmChannel.GetUsableBufSize
        (__nsaas_channel_create "c0" 256 256 4096 1024 true true true).ctxOpt
      = some 1024 ∧
    Option.map ShmChannel.GetTotalBufSize
        (__nsaas_channel_create "c0" 256 256 4096 1024 true true true).ctxOpt
      = some 2048 := by
  refine ⟨?_, rfl, rfl, rfl⟩
  have h := init_dichotomy 10485760 false "c0" 256 256 4096 1024 false true
    _ rfl
  rcases h with ⟨hret, hmagic, hmss, hsz, hcap, hent, hpool, htr⟩ | ⟨hret, _⟩
  · show Option.map ShmChannel.GetFreeBufCount
      (some (__nsaas_channel_dataplane_init 10485760 false "c0" 256 256 4096
        1024 false true).ctx) = some 4095
    rw [Option.map_some']
    unfold ShmChannel.GetFreeBufCount jring_count
    rw [hent]
    simp [List.length_range]
  · exact absurd hret (by decide)

/-- C3: on every successful channel initialization, every slot index below
the free-ring capacity has its buffer header written with the buffer magic,
its own index and size buffer_size + NSAAS_MSGBUF_HEADROOM_MAX, and the free
ring holds exactly the indices 0 .. capacity - 1 in order, fully populating
the ring (its free space is zero). -/
theorem C3_init_buffers (shm : Nat) (posix : Bool) (nm : String)
    (ns app buf bufsz : Nat) (mt mOk : Bool)
    (h : (__nsaas_channel_dataplane_init shm posix nm ns app buf bufsz
      mt mOk).ret = 0) :
    (∀ i, i < (__nsaas_channel_dataplane_init shm posix nm ns app buf bufsz
        mt mOk).ctx.bufRing.capacity →
      ∃ b, (__nsaas_channel_dataplane_init shm posix nm ns app buf bufsz
          mt mOk).ctx.pool[i]? = some b ∧
        b.magic = NSAAS_MSGBUF_MAGIC ∧ b.index = i ∧
        b.size = bufsz + NSAAS_MSGBUF_HEADROOM_MAX) ∧
    (__nsaas_channel_dataplane_init shm posix nm ns app buf bufsz
        mt mOk).ctx.bufRing.entries =
      List.range (__nsaas_channel_dataplane_init shm posix nm ns app buf
        bufsz mt mOk).ctx.bufRing.capacity ∧
    jring_free_count (__nsaas_channel_dataplane_init shm posix nm ns app buf
      bufsz mt mOk).ctx.bufRing = 0 := by
  rcases init_dichotomy shm posix nm ns app buf bufsz mt mOk _ rfl with
    ⟨hret, hmagic, hmss, hsz, hcap, hent, hpool, htr⟩ | ⟨hret, _⟩
  · refine ⟨?_, ?_, ?_⟩
    · intro i hi
      rw [hcap] at hi
      refine ⟨mkInitializedBuf i bufsz, ?_, rfl, rfl, rfl⟩
      rw [hpool, List.getElem?_map, List.getElem?_range hi]
      rfl
    · rw [hent, hcap]
    · unfold jring_free_count
      rw [hent, hcap, List.length_range]
      omega
  · exact absurd h (by rw [hret]; decide)

/-- Witness for C3 at a concrete successful initialization. -/
theorem C3_init_buffers_witness :
    (∃ b, (__nsaas_channel_dataplane_init 4194304 false "c0" 2 2 4 8
        false true).ctx.pool[2]? = some b ∧
      b.magic = NSAAS_MSGBUF_MAGIC ∧ b.index = 2 ∧
      b.size = 8 + NSAAS_MSGBUF_HEADROOM_MAX) ∧
    (__nsaas_channel_dataplane_init 4194304 false "c0" 2 2 4 8
        false true).ctx.bufRing.entries =
      List.range (__nsaas_channel_dataplane_init 4194304 false "c0" 2 2 4 8
        false true).ctx.bufRing.capacity :=
  ⟨(C3_init_buffers 4194304 false "c0" 2 2 4 8 false true (by decide)).1 2
     (by decide),
   (C3_init_buffers 4194304 false "c0" 2 2 4 8 false true (by decide)).2.1⟩

/-- C5: AddChannel returns false and leaves the registry unchanged when the
capacity bound kMaxChannelNr is reached or the name is already registered,
and in the duplicate-name case __nsaas_channel_create is never invoked (the
name check precedes region creation), so no new region is created and the
existing region of that name is untouched. -/
theorem C5_add_channel_guards (m : ChannelManager) (name : String)
    (ns app buf bufsz : Nat) (hugeOk posixOk mallocOk : Bool)
    (h : kMaxChannelNr ≤ m.channels.length ∨
      (m.channels.lookup name).isSome = true) :
    (AddChannel m name ns app buf bufsz hugeOk posixOk mallocOk).ok = false ∧
    (AddChannel m name ns app buf bufsz hugeOk posixOk mallocOk).mgr = m ∧
    ((m.channels.lookup name).isSome = true →
      (AddChannel m name ns app buf bufsz hugeOk posixOk
        mallocOk).createCalled = false) := by
  unfold AddChannel
  by_cases h1 : kMaxChannelNr ≤ m.channels.length
  · rw [if_pos h1]
    exact ⟨rfl, rfl, fun _ => rfl⟩
  · rw [if_neg h1]
    have h2 : (m.channels.lookup name).isSome = true := by
      rcases h with h | h
      · exact absurd h h1
      · exact h
    rw [if_pos h2]
    exact ⟨rfl, rfl, fun _ => rfl⟩

/-- Witness for C5: re-adding an existing name fails, changes nothing and
never calls the channel creator. -/
theorem C5_add_channel_guards_witness :
    (AddChannel { channels := [("c0", zeroCtx)] } "c0" 2 2 4 8 true true
      true).ok = false ∧
    (AddChannel { channels := [("c0", zeroCtx)] } "c0" 2 2 4 8 true true
      true).mgr = { channels := [("c0", zeroCtx)] } ∧
    (AddChannel { channels := [("c0", zeroCtx)] } "c0" 2 2 4 8 true true
      true).createCalled = false := by
  have h := C5_add_channel_guards { channels := [("c0", zeroCtx)] } "c0"
    2 2 4 8 true true true (Or.inr (by decide))
  exact ⟨h.1, h.2.1, h.2.2 (by decide)⟩

/-- C6: the free retry loop makes at most 6 calls in total (one initial call
plus at most 5 retries after zero returns), never blocks, and reports false
exactly when every call it made returned zero; on such persistent failure
MsgBufFree leaves the channel unchanged and MsgBufBulkFree leaves both the
batch contents and the channel unchanged (no teardown). -/
theorem C6_bounded_free_retry (oracle : Nat → Nat) (c : NSaaSChannelCtx)
    (b : MsgBufBatch) (a : Nat) :
    (freeAttempts oracle).2 ≤ 6 ∧
    ((freeAttempts oracle).1 = 0 ↔
      ∀ i, i < (freeAttempts oracle).2 → oracle i = 0) ∧
    ((ShmChannel.MsgBufFree c a).1 = false →
      (ShmChannel.MsgBufFree c a).2 = c) ∧
    ((ShmChannel.MsgBufBulkFree c b).ok = false →
      (ShmChannel.MsgBufBulkFree c b).batch = b ∧
      (ShmChannel.MsgBufBulkFree c b).chan = c) := by
  refine ⟨?_, ?_, ?_, ?_⟩
  · have hb := freeAttemptLoop_bounds oracle 5 0
    unfold freeAttempts
    omega
  · unfold freeAttempts
    rw [freeAttemptLoop_zero_iff oracle 5 0]
    constructor
    · intro h i hi
      exact h i (Nat.zero_le i) hi
    · intro h i _ hi
      exact h i hi
  · intro h
    unfold ShmChannel.MsgBufFree at h ⊢
    dsimp only at h ⊢
    have h0 : (ShmChannel.freeRetryLoop c 1
        [__nsaas_channel_buf_index c a] 5).1 = 0 := by
      simpa using h
    exact freeRetryLoop_zero_unchanged 5 c _ _ h0
  · unfold ShmChannel.MsgBufBulkFree
    by_cases h0 : b.GetSize = 0
    · rw [if_pos h0]
      intro hf
      exact absurd hf (by simp)
    · rw [if_neg h0]
      dsimp only
      by_cases hr : (ShmChannel.freeRetryLoop c b.GetSize b.indices 5).1 = 0
      · rw [if_pos hr]
        intro _
        exact ⟨rfl, freeRetryLoop_zero_unchanged 5 c _ _ hr⟩
      · rw [if_neg hr]
        intro hf
        exact absurd hf (by simp)

/-- Witness for C6: an always-failing oracle makes exactly six calls and
reports failure, and on a channel whose free ring has no room MsgBufFree
fails without changing the channel. -/
theorem C6_bounded_free_retry_witness :
    (freeAttempts (fun _ => 0)).2 ≤ 6 ∧ (freeAttempts (fun _ => 0)).1 = 0 ∧
    (ShmChannel.MsgBufFree zeroCtx 0).2 = zeroCtx :=
  ⟨(C6_bounded_free_retry (fun _ => 0) zeroCtx
      { indices := [], bufs := [], cnt := 0 } 0).1,
   (C6_bounded_free_retry (fun _ => 0) zeroCtx
      { indices := [], bufs := [], cnt := 0 } 0).2.1.mpr (fun _ _ => rfl),
   (C6_bounded_free_retry (fun _ => 0) zeroCtx
      { indices := [], bufs := [], cnt := 0 } 0).2.2.1 (by decide)⟩

/-- C7: DequeueMessages returns a count bounded by nb_msgs; for every
position below the count, the written pointer entry is exactly the buffer
address resolved from the written slot index against the pool (pool base
plus index times stride); entries at the count and beyond are not
written. -/
theorem C7_dequeue_messages (c : NSaaSChannelCtx) (idxArr msgsArr : List Nat)
    (n : Nat) :
    (ShmChannel.DequeueMessages c idxArr msgsArr n).ret ≤ n ∧
    (∀ i, i < (ShmChannel.DequeueMessages c idxArr msgsArr n).ret →
      ∃ s,
        (ShmChannel.DequeueMessages c idxArr msgsArr n).msg_indices[i]? =
          some s ∧
        (ShmChannel.DequeueMessages c idxArr msgsArr n).msgs[i]? =
          some (__nsaas_channel_buf c s)) ∧
    (∀ j, (ShmChannel.DequeueMessages c idxArr msgsArr n).ret ≤ j →
      (ShmChannel.DequeueMessages c idxArr msgsArr n).msgs[j]? =
        msgsArr[j]?) := by
  unfold ShmChannel.DequeueMessages __nsaas_channel_app_ring_dequeue
    jring_dequeue_burst
  dsimp only
  refine ⟨Nat.min_le_left _ _, ?_, ?_⟩
  · intro i hi
    have hlen : i <
        (c.appRing.entries.take (min n c.appRing.entries.length)).length := by
      rw [List.length_take]
      omega
    refine
      ⟨(c.appRing.entries.take (min n c.appRing.entries.length))[i], ?_, ?_⟩
    · rw [writeAt_zero_getElem_lt _ _ _ hlen, List.getElem?_eq_getElem hlen]
    · rw [writeAt_zero_getElem_lt _ _ _
        (by rw [List.length_map]; exact hlen),
        List.getElem?_map, List.getElem?_eq_getElem hlen]
      rfl
  · intro j hj
    have hlen : ((c.appRing.entries.take
        (min n c.appRing.entries.length)).map
          (__nsaas_channel_buf c)).length ≤ j := by
      rw [List.length_map, List.length_take]
      omega
    exact writeAt_zero_getElem_ge _ _ _ hlen

/-- Witness for C7 with one pending message. -/
theorem C7_dequeue_messages_witness :
    (∃ s,
      (ShmChannel.DequeueMessages
        { zeroCtx with appRing := { zeroJring with entries := [3] } }
        [7, 7] [9, 9] 2).msg_indices[0]? = some s ∧
      (ShmChannel.DequeueMessages
        { zeroCtx with appRing := { zeroJring with entries := [3] } }
        [7, 7] [9, 9] 2).msgs[0]? =
        some (__nsaas_channel_buf
          { zeroCtx with appRing := { zeroJring with entries := [3] } } s)) ∧
    (ShmChannel.DequeueMessages
      { zeroCtx with appRing := { zeroJring with entries := [3] } }
      [7, 7] [9, 9] 2).msgs[1]? = some 9 :=
  ⟨(C7_dequeue_messages
      { zeroCtx with appRing := { zeroJring with entries := [3] } }
      [7, 7] [9, 9] 2).2.1 0 (by decide),
   by
    rw [(C7_dequeue_messages
      { zeroCtx with appRing := { zeroJring with entries := [3] } }
      [7, 7] [9, 9] 2).2.2 1 (by decide)]
    rfl⟩

/-- C8: the pointer-array EnqueueMessages overload considers only the first
kMaxBurst messages when asked for more: the call behaves exactly as the call
on the kMaxBurst-long prefix, and its return count never exceeds kMaxBurst;
the excess is dropped with no error indication. -/
theorem C8_enqueue_ptr_clamp (c : NSaaSChannelCtx) (msgs : List Nat)
    (n : Nat) (h : kMaxBurst < n) :
    ShmChannel.EnqueueMessagesPtr c msgs n =
      ShmChannel.EnqueueMessagesPtr c (msgs.take kMaxBurst) kMaxBurst ∧
    (ShmChannel.EnqueueMessagesPtr c msgs n).1 ≤ kMaxBurst := by
  have hmin : min n kMaxBurst = kMaxBurst := Nat.min_eq_right (Nat.le_of_lt h)
  constructor
  · unfold ShmChannel.EnqueueMessagesPtr
    dsimp only
    rw [hmin, Nat.min_self, List.take_take, Nat.min_self]
  · unfold ShmChannel.EnqueueMessagesPtr ShmChannel.EnqueueMessagesIdx
      __nsaas_channel_nsaas_ring_enqueue jring_enqueue_bulk
    dsimp only
    rw [hmin]
    by_cases hc : kMaxBurst ≤ jring_free_count c.nsaasRing
    · rw [if_pos hc]
    · rw [if_neg hc]
      exact Nat.zero_le _

/-- Witness for C8: asking to enqueue 33 pointers equals enqueueing the
32-long prefix. -/
theorem C8_enqueue_ptr_clamp_witness :
    ShmChannel.EnqueueMessagesPtr zeroCtx (List.range 33) 33 =
      ShmChannel.EnqueueMessagesPtr zeroCtx ((List.range 33).take kMaxBurst)
        kMaxBurst ∧
    (ShmChannel.EnqueueMessagesPtr zeroCtx (List.range 33) 33).1 ≤
      kMaxBurst :=
  C8_enqueue_ptr_clamp zeroCtx (List.range 33) 33 (by decide)

/-- C9: MsgBufBulkAlloc reports success exactly when at least one buffer was
allocated (also when fewer than requested were obtained), the batch count
grows by exactly the number allocated, and the effective request is capped
at the batch room. -/
theorem C9_bulk_alloc (c : NSaaSChannelCtx) (b : MsgBufBatch) (cnt : Nat) :
    ((ShmChannel.MsgBufBulkAlloc c b cnt).ok = true ↔
      1 ≤ min (min cnt b.GetRoom) (jring_count c.bufRing)) ∧
    (ShmChannel.MsgBufBulkAlloc c b cnt).batch.cnt =
      b.cnt + min (min cnt b.GetRoom) (jring_count c.bufRing) ∧
    min (min cnt b.GetRoom) (jring_count c.bufRing) ≤ min cnt b.GetRoom := by
  unfold ShmChannel.MsgBufBulkAlloc __nsaas_channel_buf_alloc_bulk
    jring_dequeue_burst jring_count
  dsimp only
  refine ⟨?_, rfl, Nat.min_le_left _ _⟩
  simp [bne_iff_ne, Nat.one_le_iff_ne_zero]

/-- C10: MsgBufBulkFree on an empty batch returns true touching neither the
batch nor the channel; on success the batch is cleared to size zero; on
failure the batch (indices and count) is left unchanged so the caller can
retry. -/
theorem C10_bulk_free_batch (c : NSaaSChannelCtx) (b : MsgBufBatch) :
    (b.GetSize = 0 → ShmChannel.MsgBufBulkFree c b =
      { ok := true, batch := b, chan := c }) ∧
    ((ShmChannel.MsgBufBulkFree c b).ok = true →
      (ShmChannel.MsgBufBulkFree c b).batch.cnt = 0) ∧
    ((ShmChannel.MsgBufBulkFree c b).ok = false →
      (ShmChannel.MsgBufBulkFree c b).batch = b) := by
  unfold ShmChannel.MsgBufBulkFree
  by_cases h0 : b.GetSize = 0
  · rw [if_pos h0]
    exact ⟨fun _ => rfl, fun _ => h0, fun hf => absurd hf (by simp)⟩
  · rw [if_neg h0]
    dsimp only
    by_cases hr : (ShmChannel.freeRetryLoop c b.GetSize b.indices 5).1 = 0
    · rw [if_pos hr]
      exact ⟨fun he => absurd he h0, fun ht => absurd ht (by simp),
        fun _ => rfl⟩
    · rw [if_neg hr]
      exact ⟨fun he => absurd he h0, fun _ => rfl, fun hf => absurd hf (by simp)⟩

/-- Witness for C10: an empty batch is a no-op success, and a nonempty batch
on a full free ring fails with the batch intact. -/
theorem C10_bulk_free_batch_witness :
    ShmChannel.MsgBufBulkFree zeroCtx { indices := [], bufs := [], cnt := 0 }
      = { ok := true, batch := { indices := [], bufs := [], cnt := 0 },
          chan := zeroCtx } ∧
    (ShmChannel.MsgBufBulkFree zeroCtx
      { indices := [5], bufs := [5], cnt := 1 }).batch =
      { indices := [5], bufs := [5], cnt := 1 } :=
  ⟨(C10_bulk_free_batch zeroCtx { indices := [], bufs := [], cnt := 0 }).1
     rfl,
   (C10_bulk_free_batch zeroCtx { indices := [5], bufs := [5], cnt := 1 }).2.2
     (by decide)⟩

/-- C1: on every run of channel creation, the header magic of the mapped
region equals NSAAS_CHANNEL_CTX_MAGIC exactly when every initialization
sub-step succeeded (context fields and ring offsets set, all rings set up,
every buffer header written, the free ring fully populated); the magic store
is the last store of the initialization trace; on any sub-step failure the
creator returns an error with the magic never stored, unmaps the region, and
unlinks it exactly in the POSIX case, so no reader observes the magic on an
incompletely initialized region. -/
theorem C1_magic_publication (nm : String) (ns app buf bufsz : Nat)
    (hugeOk posixOk mallocOk : Bool) (R : CreateResult)
    (hR : __nsaas_channel_create nm ns app buf bufsz hugeOk posixOk mallocOk
      = R) :
    (∀ m, R.mappedMem = some m →
      (m.magic = NSAAS_CHANNEL_CTX_MAGIC ↔ R.ctxOpt.isSome = true)) ∧
    (R.ctxOpt.isSome = true →
      R.trace.getLast? = some StoreEvent.magicSt) ∧
    ((StoreEvent.magicSt ∈ R.trace) ↔ R.ctxOpt.isSome = true) ∧
    (∀ m, R.mappedMem = some m → R.ctxOpt = none →
      R.unmapped = true ∧ (R.unlinked = true ↔ R.is_posix_shm = true)) := by
  unfold __nsaas_channel_create at hR
  try dsimp only at hR
  split at hR
  · split at hR
    · rename_i hbeq
      subst hR
      rcases init_dichotomy ((__nsaas_channel_dataplane_calculate_size ns app
          buf bufsz false).getD 0) false nm ns app buf bufsz false mallocOk
          _ rfl with
        ⟨hret, hmagic, _, _, _, _, _, pre, htr⟩ | ⟨hret, hmagic, hmem⟩
      · refine ⟨?_, ?_, ?_, ?_⟩
        · intro m hm
          obtain rfl := Option.some_inj.mp hm
          simp [hmagic]
        · intro _
          rw [htr, List.getLast?_concat]
        · rw [htr]
          simp
        · intro m hm hnone
          exact absurd hnone (by simp)
      · rw [beq_iff_eq, hret] at hbeq
        exact absurd hbeq (by decide)
    · rename_i hbeq
      subst hR
      rcases init_dichotomy ((__nsaas_channel_dataplane_calculate_size ns app
          buf bufsz false).getD 0) false nm ns app buf bufsz false mallocOk
          _ rfl with
        ⟨hret, hmagic, _, _, _, _, _, pre, htr⟩ | ⟨hret, hmagic, hmem⟩
      · rw [hret] at hbeq
        exact absurd hbeq (by decide)
      · refine ⟨?_, ?_, ?_, ?_⟩
        · intro m hm
          obtain rfl := Option.some_inj.mp hm
          simp [hmagic, NSAAS_CHANNEL_CTX_MAGIC]
        · intro hs
          exact absurd hs (by simp)
        · simp [hmem]
        · intro m hm hnone
          exact ⟨rfl, by simp⟩
  · try dsimp only at hR
    split at hR
    · split at hR
      · rename_i hbeq
        subst hR
        rcases init_dichotomy ((__nsaas_channel_dataplane_calculate_size ns
            app buf bufsz true).getD 0) true nm ns app buf bufsz false
            mallocOk _ rfl with
          ⟨hret, hmagic, _, _, _, _, _, pre, htr⟩ | ⟨hret, hmagic, hmem⟩
        · refine ⟨?_, ?_, ?_, ?_⟩
          · intro m hm
            obtain rfl := Option.some_inj.mp hm
            simp [hmagic]
          · intro _
            rw [htr, List.getLast?_concat]
          · rw [htr]
            simp
          · intro m hm hnone
            exact absurd hnone (by simp)
        · rw [beq_iff_eq, hret] at hbeq
          exact absurd hbeq (by decide)
      · rename_i hbeq
        subst hR
        rcases init_dichotomy ((__nsaas_channel_dataplane_calculate_size ns
            app buf bufsz true).getD 0) true nm ns app buf bufsz false
            mallocOk _ rfl with
          ⟨hret, hmagic, _, _, _, _, _, pre, htr⟩ | ⟨hret, hmagic, hmem⟩
        · rw [hret] at hbeq
          exact absurd hbeq (by decide)
        · refine ⟨?_, ?_, ?_, ?_⟩
          · intro m hm
            obtain rfl := Option.some_inj.mp hm
            simp [hmagic, NSAAS_CHANNEL_CTX_MAGIC]
          · intro hs
            exact absurd hs (by simp)
          · simp [hmem]
          · intro m hm hnone
            exact ⟨rfl, by simp⟩
    · subst hR
      refine ⟨?_, ?_, ?_, ?_⟩
      · intro m hm
        exact absurd hm (by simp)
      · intro hs
        exact absurd hs (by simp)
      · simp
      · intro m hm hnone
        exact absurd hm (by simp)

/-- Witness for C1: a run whose buffer-table allocation fails ends with the
region unmapped, not unlinked on the hugetlbfs backing, and with the magic
absent from the trace; a fully successful run ends with the magic store
last. -/
theorem C1_magic_publication_witness :
    ((__nsaas_channel_create "c0" 2 2 4 8 true true false).unmapped = true ∧
     ((__nsaas_channel_create "c0" 2 2 4 8 true true false).unlinked = true ↔
      (__nsaas_channel_create "c0" 2 2 4 8 true true false).is_posix_shm
        = true)) ∧
    (__nsaas_channel_create "c0" 2 2 4 8 true true true).trace.getLast? =
      some StoreEvent.magicSt :=
  ⟨(C1_magic_publication "c0" 2 2 4 8 true true false _ rfl).2.2.2
     ((__nsaas_channel_create "c0" 2 2 4 8 true true false).mappedMem.get
       (by decide))
     (Option.some_get _).symm (by decide),
   (C1_magic_publication "c0" 2 2 4 8 true true true _ rfl).2.1 (by decide)⟩

end Machnet
